import Mathlib

/-!
Verification of the Declarative Pipeline Builder core (namespace `dpb`).

The development shallowly embeds the pipeline engine found in the repository
headers.  Two variants of `Pipeline` exist in the sources: the
`std::optional`-returning variant (here called the shared-ptr variant, file
with `std::function<std::optional<Out>(const In&)> operation_`) and the
optimized variant (fused `bool(const In&, Out&)` operations, a `total_items`
counter and batch atomic updates).  Both compose stages into a single
per-element function of type `In → Option Out` (the optimized variant's
`bool` return plus out-parameter protocol is exactly an optional result),
and both run the same sequential loop and the same chunked parallel scheme,
so one embedding of the element function and of the two collectors covers
both, with the optimized variant's statistics (the one with `total_items`)
taken as the stats model.

Machine integers (`std::size_t`) are modelled as `Nat`: every counter in the
engine only ever grows by the number of input elements of a run, so no
arithmetic in the embedded paths can overflow a 64-bit counter for any
feasible input; wrap-around is therefore not modelled.  Wall-clock/TSC
measurements are nondeterministic runtime inputs and are threaded through as
an explicit `elapsed : Nat` argument that the engine only ever adds to the
duration counter.  Atomic counters with relaxed ordering are modelled as
plain fields: all cross-thread updates in the source are joined before any
read (the join barrier is the synchronization edge, as the design notes
state), so the final counter values are the sums of the per-worker batch
updates in the sequentially consistent model used here.
-/

namespace dpb

/-- Execution policy enum, from the pipeline header:
`enum class ExecutionPolicy { Sequential, ParallelPreserveOrder, ParallelUnordered };` -/
inductive ExecutionPolicy where
  | Sequential
  | ParallelPreserveOrder
  | ParallelUnordered
deriving DecidableEq

/-- Modelled from the spec: the optimized pipeline variant updates a
`PipelineStats` struct with atomic counters `items_processed`,
`items_filtered`, `errors`, `total_items` and `total_duration_ns`; that
struct's definition is not among the sources (the `pipeline_stats.hpp`
present is the earlier variant without `total_items`), only its uses in the
pipeline are.  Per the spec's StatsBlock description it holds four
monotonically increasing counters plus an `errors` counter reserved for
future fault reporting, and `reset()` zeroes it.  Atomics are modelled as
plain `Nat` fields (see the header comment). -/
structure PipelineStats where
  items_processed : Nat
  items_filtered : Nat
  errors : Nat
  total_items : Nat
  total_duration_ns : Nat
deriving DecidableEq

/-- Modelled from the spec: `reset()` zeroes the stats block before a new
run. -/
def PipelineStats.reset : PipelineStats :=
  { items_processed := 0, items_filtered := 0, errors := 0
    total_items := 0, total_duration_ns := 0 }

/-- Result snapshot returned by `collect`, from the optimized pipeline
header: `struct ResultWithStats { std::vector<T> data; size_t
items_processed; size_t items_filtered; size_t errors; size_t total_items;
std::chrono::nanoseconds total_duration; }`. -/
structure ResultWithStats (T : Type) where
  data : List T
  items_processed : Nat
  items_filtered : Nat
  errors : Nat
  total_items : Nat
  total_duration_ns : Nat
deriving DecidableEq

/-- Identity operation installed by the default `Pipeline` constructor for
`In = Out` (`out = static_cast<Out>(x); return true;`, respectively
`return static_cast<Out>(x);` in the optional variant). -/
def idOp (α : Type) : α → Option α := fun x => some x

/-- Composed operation built by `filter`: evaluate the prior chain, then
`return op(x, out) && pred(out);` (optimized variant), respectively
`auto res = prev(x); if (res && f(*res)) return res; else return
std::nullopt;` (optional variant).  In both, the predicate is reached only
after the prior chain produced a value. -/
def filterOp {α β : Type} (prev : α → Option β) (f : β → Bool) : α → Option β :=
  fun x =>
    match prev x with
    | some v => if f v then some v else none
    | none => none

/-- Composed operation built by `transform`: `Out temp; if (!op(x, temp))
return false; out = tfn(std::move(temp)); return true;` (optimized
variant), respectively `auto res = prev(x); if (res) return
std::optional{f(*res)}; else return std::nullopt;` (optional variant). -/
def transformOp {α β γ : Type} (prev : α → Option β) (f : β → γ) : α → Option γ :=
  fun x =>
    match prev x with
    | some v => some (f v)
    | none => none

/-- Instrumented version of `filterOp` that additionally records the list of
values the user predicate is invoked on.  In the source the predicate `f`
appears exactly once, guarded by the short-circuiting `&&` after the prior
chain's result (`res && f(*res)`, resp. `op(x, out) && pred(out)`): it is
called on the single produced value when the prior chain yields one, and not
called at all otherwise. -/
def filterOpCalls {α β : Type} (prev : α → Option β) (f : β → Bool) (x : α) :
    Option β × List β :=
  match prev x with
  | some v => ((if f v then some v else none), [v])
  | none => (none, [])

/-- Instrumented version of `transformOp` recording the values the user
mapper is invoked on; in the source the mapper is called exactly once with
the prior chain's value, after the early `return false` (resp. the
`std::nullopt` branch) for a missing value. -/
def transformOpCalls {α β γ : Type} (prev : α → Option β) (f : β → γ) (x : α) :
    Option γ × List β :=
  match prev x with
  | some v => (some (f v), [v])
  | none => (none, [])

/-- Pipeline value: composed per-element operation, optional stats block,
execution policy and configured parallelism (`operation_`, `stats_`,
`exec_policy_`, `parallelism_` in the source; the profiler member is out of
scope).  The stats pointer is modelled by an `Option` holding the pointee's
value. -/
structure Pipeline (α β : Type) where
  operation : α → Option β
  stats : Option PipelineStats
  exec_policy : ExecutionPolicy
  parallelism : Nat

/-- Static factory `from(Range&&)`: the range argument is anonymous in the
source and used only to deduce the element type; the body returns a default
`Pipeline<T, T>{}` (identity operation, null stats, `Sequential` policy,
`parallelism_ = std::thread::hardware_concurrency()`; the hardware thread
count is the runtime input `hw`).  The source name `from` is a Lean keyword,
hence `fromRange`. -/
def Pipeline.fromRange {α : Type} (hw : Nat) (_r : List α) : Pipeline α α :=
  { operation := idOp α, stats := none
    exec_policy := ExecutionPolicy.Sequential, parallelism := hw }

/-- Builder call `filter(pred)`: replaces the operation by the fused one and
carries the other members over unchanged. -/
def Pipeline.filter {α β : Type} (p : Pipeline α β) (f : β → Bool) : Pipeline α β :=
  { p with operation := filterOp p.operation f }

/-- Builder call `transform(fn)`: replaces the operation by the fused one
(possibly changing the output type) and carries the other members over. -/
def Pipeline.transform {α β γ : Type} (p : Pipeline α β) (f : β → γ) : Pipeline α γ :=
  { operation := transformOp p.operation f, stats := p.stats
    exec_policy := p.exec_policy, parallelism := p.parallelism }

/-- Builder call `parallel(threads, policy)`:
`parallelism_ = (threads == 0 ? 1 : threads); exec_policy_ = policy;`. -/
def Pipeline.parallel {α β : Type} (p : Pipeline α β) (threads : Nat)
    (policy : ExecutionPolicy) : Pipeline α β :=
  { p with parallelism := if threads = 0 then 1 else threads, exec_policy := policy }

/-- Builder call `with_stats()` in the shared-ptr variant:
`stats_ = std::make_shared<PipelineStats>();` — a freshly allocated,
zero-initialized block bound to this chain.  (Storage identity of the two
variants' `with_stats` is modelled separately below.) -/
def Pipeline.with_stats {α β : Type} (p : Pipeline α β) : Pipeline α β :=
  { p with stats := some PipelineStats.reset }

/-- `is_parallel()`: `exec_policy_ != ExecutionPolicy::Sequential`. -/
def Pipeline.is_parallel {α β : Type} (p : Pipeline α β) : Bool :=
  p.exec_policy ≠ ExecutionPolicy.Sequential

/-- Accumulator of one pass of the per-element loop: the output buffer and
the two local counters (`result`/`local_results[t]`, `processed_count`/
`local_processed`, `filtered_count`/`local_filtered`). -/
structure LoopOut (β : Type) where
  out : List β
  processed : Nat
  filtered : Nat
deriving DecidableEq

/-- Per-element loop shared by `collect_sequential`'s hot loop and by each
parallel worker's chunk loop: for each element in order apply the composed
operation once; on a produced value append it to the output buffer and bump
the processed counter, otherwise bump the filtered counter.  (The source
loops append at the back while scanning front to back; the recursion below
produces the same buffer front to back.) -/
def seqLoop {α β : Type} (op : α → Option β) : List α → LoopOut β
  | [] => { out := [], processed := 0, filtered := 0 }
  | x :: xs =>
    let r := seqLoop op xs
    match op x with
    | some v => { out := v :: r.out, processed := r.processed + 1, filtered := r.filtered }
    | none => { out := r.out, processed := r.processed, filtered := r.filtered + 1 }

/-- Sequential collector (`collect_sequential` of the optimized variant):
run the loop with local counters, then, when a stats block is attached,
batch-add `processed`, `filtered`, `processed + filtered` and the elapsed
time into it once, and return a snapshot loaded from the (updated) block;
without stats return `{result, result.size(), 0, 0, result.size(), 0ns}`.
Returns the snapshot together with the stats block's new value. -/
def collect_sequential {α β : Type} (op : α → Option β) (stats : Option PipelineStats)
    (elapsed : Nat) (input : List α) : ResultWithStats β × Option PipelineStats :=
  let r := seqLoop op input
  match stats with
  | some s =>
    let s' : PipelineStats :=
      { items_processed := s.items_processed + r.processed
        items_filtered := s.items_filtered + r.filtered
        errors := s.errors
        total_items := s.total_items + (r.processed + r.filtered)
        total_duration_ns := s.total_duration_ns + elapsed }
    ({ data := r.out, items_processed := s'.items_processed
       items_filtered := s'.items_filtered, errors := s'.errors
       total_items := s'.total_items, total_duration_ns := s'.total_duration_ns },
     some s')
  | none =>
    ({ data := r.out, items_processed := r.out.length, items_filtered := 0
       errors := 0, total_items := r.out.length, total_duration_ns := 0 }, none)

/-- Chunk sizes of the parallel partitioning: with `total` elements and
`threads = min(parallelism_, total)` workers, `base_chunk = total / threads`
and `remainder = total % threads`, chunk `t` gets
`base_chunk + (t < remainder ? 1 : 0)` elements; the spawning loop runs `t`
from `0` to `threads - 1` and breaks at the first zero-sized chunk
(`if (chunk_size == 0) break;`), which the `takeWhile` reproduces. -/
def chunkSizes (total parallelism : Nat) : List Nat :=
  let threads := min parallelism total
  let base_chunk := total / threads
  let remainder := total % threads
  ((List.range threads).map fun t =>
    base_chunk + (if t < remainder then 1 else 0)).takeWhile (fun s => s ≠ 0)

/-- Contiguous chunks of the buffered input: chunk `t` starts at the offset
accumulated from the previous chunk sizes (`chunk_begin = buffer.data() +
offset; offset += chunk_size; chunk_end = buffer.data() + offset;`). -/
def splitChunks {α : Type} (l : List α) : List Nat → List (List α)
  | [] => []
  | n :: ns => l.take n :: splitChunks (l.drop n) ns

/-- Parallel collector (`collect_parallel`): buffer the input, partition it
into the chunks above, run one worker loop per chunk into a private local
buffer with local counters, join, then batch-add each worker's counters plus
(`total_items += total`, `total_duration_ns += elapsed`) into the stats
block, and merge the local buffers; the merge's `if/else` on the policy has
two identical branches, both concatenating the local buffers in ascending
chunk index.  Returns the snapshot (loaded from the updated stats block, or
`{merged, merged.size(), 0, 0, total, 0ns}` without stats) together with the
stats block's new value. -/
def collect_parallel {α β : Type} (op : α → Option β) (stats : Option PipelineStats)
    (policy : ExecutionPolicy) (parallelism : Nat) (elapsed : Nat)
    (input : List α) : ResultWithStats β × Option PipelineStats :=
  let total := input.length
  let locals := (splitChunks input (chunkSizes total parallelism)).map (seqLoop op)
  let processedSum := (locals.map LoopOut.processed).sum
  let filteredSum := (locals.map LoopOut.filtered).sum
  let merged :=
    if policy = ExecutionPolicy.ParallelPreserveOrder then
      (locals.map LoopOut.out).flatten
    else
      (locals.map LoopOut.out).flatten
  match stats with
  | some s =>
    let s' : PipelineStats :=
      { items_processed := s.items_processed + processedSum
        items_filtered := s.items_filtered + filteredSum
        errors := s.errors
        total_items := s.total_items + total
        total_duration_ns := s.total_duration_ns + elapsed }
    ({ data := merged, items_processed := s'.items_processed
       items_filtered := s'.items_filtered, errors := s'.errors
       total_items := s'.total_items, total_duration_ns := s'.total_duration_ns },
     some s')
  | none =>
    ({ data := merged, items_processed := merged.length, items_filtered := 0
       errors := 0, total_items := total, total_duration_ns := 0 }, none)

/-- Terminal `collect(input)`: `if (!is_parallel() || !sized_range) return
collect_sequential(...); total = size(input); if (total == 0 ||
parallelism_ <= 1) return collect_sequential(...); return
collect_parallel(...);` — a `List` model of the range is always sized. -/
def Pipeline.collect {α β : Type} (p : Pipeline α β) (elapsed : Nat)
    (input : List α) : ResultWithStats β × Option PipelineStats :=
  if p.exec_policy = ExecutionPolicy.Sequential then
    collect_sequential p.operation p.stats elapsed input
  else if input.length = 0 ∨ p.parallelism ≤ 1 then
    collect_sequential p.operation p.stats elapsed input
  else
    collect_parallel p.operation p.stats p.exec_policy p.parallelism elapsed input

/-- Modelled from the spec: outcome space for the Misuse contract of §7 (a
`collect` call either returns a snapshot or fails with a `Misuse` error).
The source defines no such error anywhere — `PipelineError` in
`concepts.hpp` has only `Filtered`, `InvalidInput`, `ProcessingFailed` and
`BackpressureExceeded` — so the embedded engine below never produces the
`misuse` outcome. -/
inductive CollectOutcome (β : Type) where
  | ok (r : ResultWithStats β)
  | misuse
deriving DecidableEq

/-- Observable outcome of calling `collect` on a chain value that may
already have been consumed by an earlier `collect`.  The `consumed` flag
models whether this chain value was already collected.  In the source,
`collect` is merely rvalue-qualified: it reads `operation_`, `stats_`,
`exec_policy_` and `parallelism_`, moves nothing out of them, keeps no
consumed flag, and has no failure path, so a second invocation on the same
chain value re-runs the very same computation; accordingly the embedding
ignores `consumed` and always returns the recomputed snapshot. -/
def collectChecked {α β : Type} (p : Pipeline α β) (_consumed : Bool)
    (elapsed : Nat) (input : List α) : CollectOutcome β :=
  CollectOutcome.ok (p.collect elapsed input).1

/-- Heap of stats blocks, addressed by `Nat` addresses. -/
def StatsHeap : Type := Nat → PipelineStats

/-- Storage model of `with_stats()` in the shared-ptr variant:
`stats_ = std::make_shared<PipelineStats>();` allocates a fresh block; the
heap allocator is modelled as a bump allocator returning the next unused
address.  Returns the address bound to this chain and the new allocator
state. -/
def with_stats_shared (next_id : Nat) : Nat × Nat := (next_id, next_id + 1)

/-- Address of the single function-local `static thread_local PipelineStats
local_stats;` of the optimized variant's `with_stats()`: one object per
thread (and template instantiation), at a fixed address for the whole
thread's lifetime. -/
def local_stats_addr : Nat := 0

/-- Storage model of `with_stats()` in the optimized variant:
`static thread_local PipelineStats local_stats; local_stats.reset();
stats_ = &local_stats;` — every call on this thread binds the chain to the
same static block, resetting it.  Returns the address bound to this chain
and the updated heap. -/
def with_stats_static (heap : StatsHeap) : Nat × StatsHeap :=
  (local_stats_addr,
   fun a => if a = local_stats_addr then PipelineStats.reset else heap a)

/-- Per-element worker loop over a chunk when the composed operation may
raise a fault (`Except.error`): the worker body of `collect_parallel` has no
try/catch, so evaluation of the chunk stops at the first faulting element
and the fault escapes the worker's initial function. -/
def seqLoopExc {α β ε : Type} (op : α → Except ε (Option β)) :
    List α → Except ε (List β)
  | [] => Except.ok []
  | x :: xs =>
    match op x with
    | Except.error e => Except.error e
    | Except.ok none => seqLoopExc op xs
    | Except.ok (some v) =>
      match seqLoopExc op xs with
      | Except.error e => Except.error e
      | Except.ok l => Except.ok (v :: l)

/-- Observable outcome of a parallel run whose stages may fault:
`completed` with the merged output, `terminated` when a fault escapes a
worker's initial function (an uncaught exception leaving the function
passed to `std::thread` invokes `std::terminate` — the workers spawned by
`collect_parallel` contain no handler), or `raisedToCaller` for the
capture-join-rethrow protocol the spec requires (which the embedded engine
never produces, since no capture code exists in the source). -/
inductive ParallelRunOutcome (β ε : Type) where
  | completed (data : List β)
  | terminated
  | raisedToCaller (e : ε)
deriving DecidableEq

/-- Parallel collection under possibly-faulting stages, mirroring
`collect_parallel`'s raw `std::thread` workers with no fault capture: if any
chunk's loop faults, the fault escapes that worker thread and the process is
terminated; otherwise the local buffers are concatenated in ascending chunk
index. -/
def collect_parallel_exc {α β ε : Type} (op : α → Except ε (Option β))
    (parallelism : Nat) (input : List α) : ParallelRunOutcome β ε :=
  let locals := (splitChunks input (chunkSizes input.length parallelism)).map (seqLoopExc op)
  if locals.any (fun r => match r with | Except.error _ => true | Except.ok _ => false) then
    ParallelRunOutcome.terminated
  else
    ParallelRunOutcome.completed
      ((locals.map (fun r => match r with | Except.ok l => l | Except.error _ => [])).flatten)

/-- Concrete chain used by the scenario of the spec's testable properties:
`from([1,2,3,4,5]).filter(x > 3).transform(x * 2)`. -/
def chainEx : Pipeline Nat Nat :=
  ((Pipeline.fromRange 4 [1, 2, 3, 4, 5]).filter (fun x => decide (3 < x))).transform
    (fun x => x * 2)

/-- Faulting stage used for the fault-handling analysis: a mapper that
raises on the element `3` and doubles every other element. -/
def faultingOp : Nat → Except String (Option Nat) :=
  fun n => if n = 3 then Except.error "boom" else Except.ok (some (n * 2))


/-! ## Supporting lemmas -/

/-- Output buffer of the per-element loop is the `filterMap` of the input by
the composed operation. -/
theorem seqLoop_out_eq_filterMap {α β : Type} (op : α → Option β) (l : List α) :
    (seqLoop op l).out = l.filterMap op := by
  induction l with
  | nil => rfl
  | cons x xs ih => cases h : op x <;> simp [seqLoop, h, List.filterMap_cons, ih]

/-- Every element of a pass bumps exactly one of the two local counters. -/
theorem seqLoop_count_eq_length {α β : Type} (op : α → Option β) (l : List α) :
    (seqLoop op l).processed + (seqLoop op l).filtered = l.length := by
  induction l with
  | nil => rfl
  | cons x xs ih => cases h : op x <;> simp [seqLoop, h] <;> omega

/-- The loop distributes over concatenation of the input. -/
theorem seqLoop_append {α β : Type} (op : α → Option β) (l₁ l₂ : List α) :
    seqLoop op (l₁ ++ l₂) =
      { out := (seqLoop op l₁).out ++ (seqLoop op l₂).out
        processed := (seqLoop op l₁).processed + (seqLoop op l₂).processed
        filtered := (seqLoop op l₁).filtered + (seqLoop op l₂).filtered } := by
  induction l₁ with
  | nil => simp [seqLoop]
  | cons x xs ih => cases h : op x <;> simp [seqLoop, h, ih] <;> omega

/-- Concatenating the chunk-local output buffers in chunk order equals one
pass over the concatenated chunks. -/
theorem flatten_seqLoop_out {α β : Type} (op : α → Option β) (chunks : List (List α)) :
    ((chunks.map (seqLoop op)).map LoopOut.out).flatten = (seqLoop op chunks.flatten).out := by
  induction chunks with
  | nil => rfl
  | cons c cs ih =>
    simp only [List.map_cons, List.flatten_cons, List.sum_cons, seqLoop_append, ih]

/-- Summing the chunk-local processed counters equals one pass over the
concatenated chunks. -/
theorem sum_seqLoop_processed {α β : Type} (op : α → Option β) (chunks : List (List α)) :
    ((chunks.map (seqLoop op)).map LoopOut.processed).sum
      = (seqLoop op chunks.flatten).processed := by
  induction chunks with
  | nil => rfl
  | cons c cs ih =>
    simp only [List.map_cons, List.flatten_cons, List.sum_cons, seqLoop_append, ih]

/-- Summing the chunk-local filtered counters equals one pass over the
concatenated chunks. -/
theorem sum_seqLoop_filtered {α β : Type} (op : α → Option β) (chunks : List (List α)) :
    ((chunks.map (seqLoop op)).map LoopOut.filtered).sum
      = (seqLoop op chunks.flatten).filtered := by
  induction chunks with
  | nil => rfl
  | cons c cs ih =>
    simp only [List.map_cons, List.flatten_cons, List.sum_cons, seqLoop_append, ih]

/-- Closed form of the partition sizes before the dead `break`: the sum of
`base + (t < rem ? 1 : 0)` over `t < n`. -/
theorem sum_range_add_ite (base rem : Nat) :
    ∀ n : Nat, (((List.range n).map fun t => base + if t < rem then 1 else 0)).sum
      = n * base + min rem n := by
  intro n
  induction n with
  | zero => simp
  | succ n ih =>
    rw [List.range_succ, List.map_append, List.sum_append, ih, Nat.succ_mul]
    by_cases h : n < rem <;> simp [h] <;> omega

/-- With a nonempty source and positive parallelism every chunk is nonempty,
so the `break` in the spawning loop never fires and the sizes are exactly the
closed-form list. -/
theorem chunkSizes_eq_map (total par : Nat) (hN : 0 < total) (hp : 0 < par) :
    chunkSizes total par
      = (List.range (min par total)).map
          (fun t => total / min par total + if t < total % min par total then 1 else 0) := by
  unfold chunkSizes
  rw [List.takeWhile_eq_self_iff]
  intro x hx
  simp only [List.mem_map, List.mem_range] at hx
  obtain ⟨t, _, rfl⟩ := hx
  have hT : 0 < min par total := lt_min hp hN
  have hbase : 1 ≤ total / min par total :=
    (Nat.one_le_div_iff hT).mpr (min_le_right _ _)
  simp
  omega

/-- The chunk sizes sum to the source length. -/
theorem chunkSizes_sum (total par : Nat) (hN : 0 < total) (hp : 0 < par) :
    (chunkSizes total par).sum = total := by
  rw [chunkSizes_eq_map total par hN hp, sum_range_add_ite]
  have hT : 0 < min par total := lt_min hp hN
  have hrem : total % min par total < min par total := Nat.mod_lt _ hT
  rw [Nat.min_eq_left hrem.le]
  exact Nat.div_add_mod total (min par total)

/-- Chunks whose sizes sum to the source length cover the source in order
without overlap: concatenating them in chunk order restores the source. -/
theorem splitChunks_flatten {α : Type} (sizes : List Nat) (l : List α)
    (h : sizes.sum = l.length) : (splitChunks l sizes).flatten = l := by
  induction sizes generalizing l with
  | nil =>
    simp only [List.sum_nil] at h
    simp [splitChunks, (List.length_eq_zero.mp h.symm)]
  | cons n ns ih =>
    simp only [List.sum_cons] at h
    have h' : ns.sum = (l.drop n).length := by
      rw [List.length_drop]; omega
    simp [splitChunks, ih _ h']

/-- Output data of the sequential collector, with or without stats. -/
theorem collect_sequential_data {α β : Type} (op : α → Option β)
    (stats : Option PipelineStats) (elapsed : Nat) (input : List α) :
    (collect_sequential op stats elapsed input).1.data = input.filterMap op := by
  cases stats <;> simp [collect_sequential, seqLoop_out_eq_filterMap]

/-- Output data of the parallel collector for a nonempty source and positive
parallelism, under either merge policy, with or without stats. -/
theorem collect_parallel_data {α β : Type} (op : α → Option β)
    (stats : Option PipelineStats) (policy : ExecutionPolicy) (par elapsed : Nat)
    (input : List α) (hN : 0 < input.length) (hp : 0 < par) :
    (collect_parallel op stats policy par elapsed input).1.data = input.filterMap op := by
  have hflat : (splitChunks input (chunkSizes input.length par)).flatten = input :=
    splitChunks_flatten _ _ (chunkSizes_sum _ _ hN hp)
  cases stats <;>
    simp [collect_parallel, ite_self] <;>
    rw [← List.map_map, flatten_seqLoop_out, hflat, seqLoop_out_eq_filterMap]

/-- Output data of `collect` on any pipeline: every dispatch branch of the
terminal operation produces the `filterMap` of the input by the composed
operation. -/
theorem collect_data {α β : Type} (p : Pipeline α β) (elapsed : Nat) (input : List α) :
    (p.collect elapsed input).1.data = input.filterMap p.operation := by
  rw [Pipeline.collect]
  split
  · exact collect_sequential_data _ _ _ _
  · split
    · exact collect_sequential_data _ _ _ _
    · next h h' =>
      have h'' := not_or.mp h'
      exact collect_parallel_data _ _ _ _ _ _
        (Nat.pos_of_ne_zero h''.1) (by omega)

/-! ## Claim theorems -/

/-- C1: for every finite input sequence, every chain of filter/transform
stages (any composed pure per-element operation), every thread count and
either stats setting, `collect` under `ParallelPreserveOrder` produces an
output sequence element-for-element identical to `collect` under
`Sequential` on the same chain and input (timing measurements of the two
runs may differ arbitrarily). -/
theorem C1_parallel_preserve_order_matches_sequential {α β : Type}
    (op : α → Option β) (stats : Option PipelineStats)
    (par elapsedPar elapsedSeq : Nat) (input : List α) :
    (Pipeline.collect ⟨op, stats, ExecutionPolicy.ParallelPreserveOrder, par⟩
        elapsedPar input).1.data
      = (Pipeline.collect ⟨op, stats, ExecutionPolicy.Sequential, par⟩
          elapsedSeq input).1.data := by
  rw [collect_data, collect_data]

/-- C2: for every finite input sequence and every chain (any composed pure
per-element operation), the sequential collector returns exactly the ordered
subsequence of elements on which the chain yields a value, each replaced by
that value — `List.filterMap` of the input by the composed operation. -/
theorem C2_sequential_collect_is_ordered_filterMap {α β : Type}
    (op : α → Option β) (stats : Option PipelineStats) (elapsed : Nat)
    (input : List α) :
    (collect_sequential op stats elapsed input).1.data = input.filterMap op :=
  collect_sequential_data op stats elapsed input

/-- C3: after every completed `collect` run with a stats block attached —
sequential or parallel, for every input, chain, policy and parallelism —
the snapshot's counters satisfy
`total_items = items_processed + items_filtered`, provided the block
satisfied the invariant before the run (a freshly attached block is zeroed
by `with_stats`, hence satisfies it). -/
theorem C3_total_items_invariant {α β : Type} (op : α → Option β)
    (policy : ExecutionPolicy) (par elapsed : Nat) (input : List α)
    (s : PipelineStats)
    (h : s.total_items = s.items_processed + s.items_filtered) :
    (Pipeline.collect ⟨op, some s, policy, par⟩ elapsed input).1.total_items
      = (Pipeline.collect ⟨op, some s, policy, par⟩ elapsed input).1.items_processed
        + (Pipeline.collect ⟨op, some s, policy, par⟩ elapsed input).1.items_filtered := by
  rw [Pipeline.collect]
  split
  · simp only [collect_sequential]
    omega
  · split
    · simp only [collect_sequential]
      omega
    · next h1 h2 =>
      have h'' := not_or.mp h2
      have hN : 0 < input.length := Nat.pos_of_ne_zero h''.1
      have h3 : ¬ par ≤ 1 := h''.2
      have hpar : 0 < par := by omega
      have hflat := splitChunks_flatten _ input (chunkSizes_sum input.length par hN hpar)
      have hp := sum_seqLoop_processed op (splitChunks input (chunkSizes input.length par))
      have hf := sum_seqLoop_filtered op (splitChunks input (chunkSizes input.length par))
      rw [hflat] at hp hf
      have hlen := seqLoop_count_eq_length op input
      rw [List.map_map] at hp hf
      simp [collect_parallel]
      omega

/-- C3 witness: a concrete parallel run with a freshly reset stats block
over `[0,1,2,3,4]` with an even-keeping chain at parallelism 2. -/
theorem C3_total_items_invariant_witness :
    (Pipeline.collect
        ⟨fun n => if n % 2 = 0 then some n else none, some PipelineStats.reset,
          ExecutionPolicy.ParallelPreserveOrder, 2⟩ 5 [0, 1, 2, 3, 4]).1.total_items
      = (Pipeline.collect
          ⟨fun n => if n % 2 = 0 then some n else none, some PipelineStats.reset,
            ExecutionPolicy.ParallelPreserveOrder, 2⟩ 5 [0, 1, 2, 3, 4]).1.items_processed
        + (Pipeline.collect
            ⟨fun n => if n % 2 = 0 then some n else none, some PipelineStats.reset,
              ExecutionPolicy.ParallelPreserveOrder, 2⟩ 5 [0, 1, 2, 3, 4]).1.items_filtered :=
  C3_total_items_invariant (fun n => if n % 2 = 0 then some n else none)
    ExecutionPolicy.ParallelPreserveOrder 2 5 [0, 1, 2, 3, 4] PipelineStats.reset rfl

/-- C4: composition is short-circuiting.  The instrumented stage composers
record exactly the values the user predicate/mapper is invoked on: when the
prior chain yields nothing for an element, neither a subsequently composed
filter's predicate nor a subsequently composed transform's mapper is invoked
(empty call list); when it yields a value, the predicate is invoked on
exactly that value and decides pass-through or drop, and the mapper is
invoked on exactly that value.  The instrumented composers compute the same
result as the real ones. -/
theorem C4_short_circuit {α β γ : Type} (prev : α → Option β) (f : β → Bool)
    (g : β → γ) (x : α) :
    ((filterOpCalls prev f x).1 = filterOp prev f x
      ∧ (transformOpCalls prev g x).1 = transformOp prev g x)
    ∧ (prev x = none →
        (filterOpCalls prev f x).2 = [] ∧ (transformOpCalls prev g x).2 = [])
    ∧ ∀ v : β, prev x = some v →
        (filterOpCalls prev f x).2 = [v]
        ∧ (filterOpCalls prev f x).1 = (if f v then some v else none)
        ∧ (transformOpCalls prev g x).2 = [v] := by
  cases h : prev x <;>
    simp [filterOpCalls, transformOpCalls, filterOp, transformOp, h]

/-- C4 witness: with the stage `n ↦ (n = 0 ? nothing : n)`, the dropped
element 0 triggers no predicate call and the passing element 2 triggers
exactly one call on the value 2. -/
theorem C4_short_circuit_witness :
    (filterOpCalls (fun n : Nat => if n = 0 then none else some n)
        (fun v => decide (1 < v)) 0).2 = []
    ∧ (filterOpCalls (fun n : Nat => if n = 0 then none else some n)
        (fun v => decide (1 < v)) 2).2 = [2] :=
  ⟨((C4_short_circuit (fun n : Nat => if n = 0 then none else some n)
      (fun v => decide (1 < v)) (fun v => v * 3) 0).2.1 (by decide)).1,
   ((C4_short_circuit (fun n : Nat => if n = 0 then none else some n)
      (fun v => decide (1 < v)) (fun v => v * 3) 2).2.2 2 (by decide)).1⟩

/-- C5: for a nonempty source and configured parallelism above one, the
partition consists of `T = min(parallelism, N)` chunks whose sizes are the
fixed closed-form function of `N` and `T` (`N / T` plus one extra for the
first `N mod T` chunks), the sizes sum to `N`, and the chunks cover the
source contiguously in order without overlap (concatenating them restores
the source). -/
theorem C5_deterministic_partitioning {α : Type} (input : List α) (P : Nat)
    (hN : 0 < input.length) (hP : 1 < P) :
    chunkSizes input.length P
      = (List.range (min P input.length)).map
          (fun t => input.length / min P input.length
            + if t < input.length % min P input.length then 1 else 0)
    ∧ (chunkSizes input.length P).length = min P input.length
    ∧ (chunkSizes input.length P).sum = input.length
    ∧ (splitChunks input (chunkSizes input.length P)).flatten = input := by
  have hp : 0 < P := lt_trans Nat.zero_lt_one hP
  refine ⟨chunkSizes_eq_map _ _ hN hp, ?_, chunkSizes_sum _ _ hN hp,
    splitChunks_flatten _ _ (chunkSizes_sum _ _ hN hp)⟩
  rw [chunkSizes_eq_map _ _ hN hp]
  simp

/-- C5 witness: five elements at parallelism 2 split as `[3, 2]`, summing to
5 and covering the source in order. -/
theorem C5_deterministic_partitioning_witness :
    (chunkSizes ([10, 20, 30, 40, 50] : List Nat).length 2).sum
        = ([10, 20, 30, 40, 50] : List Nat).length
    ∧ (splitChunks ([10, 20, 30, 40, 50] : List Nat)
        (chunkSizes ([10, 20, 30, 40, 50] : List Nat).length 2)).flatten
        = [10, 20, 30, 40, 50] :=
  ⟨(C5_deterministic_partitioning [10, 20, 30, 40, 50] 2 (by decide) (by decide)).2.2.1,
   (C5_deterministic_partitioning [10, 20, 30, 40, 50] 2 (by decide) (by decide)).2.2.2⟩

/-- Merge-policy irrelevance inside the parallel collector: the `if/else`
on the policy has two identical branches. -/
theorem collect_parallel_policy_irrelevant {α β : Type} (op : α → Option β)
    (stats : Option PipelineStats) (pol₁ pol₂ : ExecutionPolicy)
    (par elapsed : Nat) (input : List α) :
    collect_parallel op stats pol₁ par elapsed input
      = collect_parallel op stats pol₂ par elapsed input := by
  cases stats <;> simp [collect_parallel, ite_self]

/-- C9: the merge step under `ParallelUnordered` concatenates the
chunk-local buffers in ascending chunk index exactly as
`ParallelPreserveOrder` does (the two branches of the merge `if/else` are
identical), so the full `collect` result — output sequence and all counters
— is identical under the two parallel policies for the same chain, input
and thread count. -/
theorem C9_unordered_collect_equals_preserve_order {α β : Type}
    (op : α → Option β) (stats : Option PipelineStats) (par elapsed : Nat)
    (input : List α) :
    Pipeline.collect ⟨op, stats, ExecutionPolicy.ParallelUnordered, par⟩ elapsed input
      = Pipeline.collect ⟨op, stats, ExecutionPolicy.ParallelPreserveOrder, par⟩
          elapsed input := by
  by_cases h : input.length = 0 ∨ par ≤ 1
  · simp only [Pipeline.collect]
    rw [if_neg (c := ExecutionPolicy.ParallelUnordered = ExecutionPolicy.Sequential) (by simp),
      if_neg (c := ExecutionPolicy.ParallelPreserveOrder = ExecutionPolicy.Sequential) (by simp),
      if_pos h, if_pos h]
  · simp only [Pipeline.collect]
    rw [if_neg (c := ExecutionPolicy.ParallelUnordered = ExecutionPolicy.Sequential) (by simp),
      if_neg (c := ExecutionPolicy.ParallelPreserveOrder = ExecutionPolicy.Sequential) (by simp),
      if_neg h, if_neg h]
    exact collect_parallel_policy_irrelevant op stats _ _ par elapsed input

/-- C10: the range argument of `from` is used only for element-type
deduction and never read — for any two ranges of the same element type and
any identical sequence of subsequent builder calls ending in `collect` on
the same source, the resulting snapshot (output sequence and all counters)
is identical. -/
theorem C10_from_ignores_range {α β : Type} (hw : Nat) (r₁ r₂ : List α)
    (build : Pipeline α α → Pipeline α β) (elapsed : Nat) (source : List α) :
    Pipeline.collect (build (Pipeline.fromRange hw r₁)) elapsed source
      = Pipeline.collect (build (Pipeline.fromRange hw r₂)) elapsed source := rfl

/-- C6 counterexample: invoking `collect` on the already-consumed scenario
chain (`from([1..5]).filter(x > 3).transform(x * 2)`, consumed flag set)
does not fail with a `Misuse` error — it re-executes the pipeline and
returns the recomputed snapshot `[8, 10]`. -/
theorem C6_counterexample_second_collect_recomputes :
    collectChecked chainEx true 0 [1, 2, 3, 4, 5]
      = CollectOutcome.ok
          { data := [8, 10], items_processed := 2, items_filtered := 0
            errors := 0, total_items := 2, total_duration_ns := 0 } := by
  decide

/-- C6 amended: the source keeps no consumed state and defines no `Misuse`
error (its `PipelineError` enum has only `Filtered`, `InvalidInput`,
`ProcessingFailed`, `BackpressureExceeded`), so a second `collect` on the
same chain value silently re-executes the pipeline and returns the
recomputed snapshot — identical to a first collect, whose data is the
recomputation `filterMap` of the source by the chain. -/
theorem C6_amended_second_collect_silently_recomputes {α β : Type}
    (p : Pipeline α β) (elapsed : Nat) (input : List α) :
    collectChecked p true elapsed input = collectChecked p false elapsed input
    ∧ collectChecked p true elapsed input
        = CollectOutcome.ok (p.collect elapsed input).1
    ∧ (p.collect elapsed input).1.data = input.filterMap p.operation :=
  ⟨rfl, rfl, collect_data p elapsed input⟩

/-- C7: two pipeline instances on the same thread each calling the
optimized variant's `with_stats()` are both bound to the address of the one
function-local `static thread_local PipelineStats local_stats` — the same
storage, violating the dedicated-per-instance contract; the shared-ptr
variant's `with_stats()` by contrast allocates distinct fresh blocks
(addresses 0 and 1 from a fresh allocator). -/
theorem C7_static_with_stats_shares_storage :
    (with_stats_static (fun _ => PipelineStats.reset)).1 = local_stats_addr
    ∧ (with_stats_static ((with_stats_static (fun _ => PipelineStats.reset)).2)).1
        = local_stats_addr
    ∧ (with_stats_shared 0).1 = 0
    ∧ (with_stats_shared (with_stats_shared 0).2).1 = 1 :=
  ⟨rfl, rfl, rfl, rfl⟩

/-- C8: with the chain that faults on element 3, a parallel run over
`[1, 2, 3, 4]` at parallelism 2 hits the fault inside a raw worker thread
that has no fault capture, so the fault escapes the worker's initial
function and the process is terminated — the engine never reaches a
capture-join-rethrow of the fault to the caller. -/
theorem C8_worker_fault_terminates_process :
    collect_parallel_exc faultingOp 2 [1, 2, 3, 4]
      = ParallelRunOutcome.terminated := by
  decide

end dpb
